import Mathlib

/-!
Shallow embedding of the tail-risk analysis engine
(src/app.py and src/server.py, functions process_csv_data,
is_relevant_time, analyze_tail_risk).

Modelling conventions:
* Instants are minutes since a fixed epoch, as integers: a calendar day d
  combined with a time-of-day t (minutes since midnight, 0 <= t < 1440)
  is the instant d * 1440 + t.  The source parses times with format
  %I:%M%p, so every instant has whole-minute resolution.
* A CSV cell that fails its parse is represented by its parse result
  (Option): src parse_time returns NaT on failure, to_datetime with
  errors=coerce returns NaT on failure.
* The Except monad stands for the try/except wrapper in
  process_csv_data: any exception raised inside is caught and returned
  as an error string.
-/

/-- Lower-case an ASCII letter; other characters unchanged.  Models the
case-insensitive match of pandas str.contains(case=False). -/
def lowerChar (c : Char) : Char :=
  if 'A' ≤ c ∧ c ≤ 'Z' then Char.ofNat (c.toNat + 32) else c

/-- Does hay contain needle as a contiguous sublist. -/
def hasSub (needle : List Char) : List Char → Bool
  | [] => needle.isEmpty
  | c :: t => needle.isPrefixOf (c :: t) || hasSub needle t

/-- Models src line: df.Duration.astype(str).str.contains(Cancelled, case=False),
a case-insensitive substring test. -/
def containsCancelled (s : String) : Bool :=
  hasSub ("cancelled".toList) (s.toList.map lowerChar)

/-- One raw CSV data row, each cell replaced by its parse result:
date is the parsed Date cell (day number; none = parse failure),
depTod / arrTod are the parsed Departure / Arrival times-of-day in
minutes since midnight (none = parse failure, cleaned of CET/CEST),
duration / origin / dest / aircraft are the raw cell texts. -/
structure RawRow where
  date : Option ℤ
  depTod : Option ℤ
  arrTod : Option ℤ
  duration : String
  origin : String
  dest : String
  aircraft : String
  deriving DecidableEq, Repr

/-- A parsed CSV table: which optional columns are present, and the rows. -/
structure CsvTable where
  hasDate : Bool
  hasDuration : Bool
  hasOrigin : Bool
  hasDest : Bool
  hasAircraft : Bool
  rows : List RawRow
  deriving DecidableEq, Repr

/-- Canonical flight record produced by the CSV ingest (post drop of
rows whose Date failed to parse): Date_dt, actual_out, actual_in
(after the overnight correction), is_cancelled. -/
structure FlightRec where
  dateDay : ℤ
  actualOut : Option ℤ
  actualIn : Option ℤ
  isCancelled : Bool
  deriving DecidableEq, Repr

/-- Metadata record produced by process_csv_data step 5. -/
structure Meta where
  origin : String
  dest : String
  aircraft : String
  count : ℕ
  deriving DecidableEq, Repr

/-- pandas Series.mode()[0]: the smallest among the values of maximal
multiplicity; none when the series is empty. -/
def pandasMode (vals : List String) : Option String :=
  vals.dedup.foldl
    (fun acc v =>
      match acc with
      | none => some v
      | some w =>
        if vals.count v > vals.count w then some v
        else if vals.count v = vals.count w ∧ decide (v < w) = true then some v
        else some w)
    none

/-- Models the metadata entries of process_csv_data step 5:
df[col].mode()[0] if col in df.columns else fallback.  Taking element 0
of the mode of an empty column raises a KeyError, which the enclosing
try/except converts into an error result. -/
def colMode (present : Bool) (fallback : String) (vals : List String) :
    Except String String :=
  if present then
    match pandasMode vals with
    | some v => Except.ok v
    | none => Except.error "Error processing CSV: KeyError 0"
  else Except.ok fallback

/-- Steps 2 - 4 of process_csv_data for one surviving row (its Date
parsed to day): build actual_out and actual_in by combining the row
date with the parsed time-of-day, set is_cancelled from the Duration
cell, and apply the overnight correction: when both instants exist and
the arrival time-of-day is strictly below the departure time-of-day,
add one calendar day (1440 minutes) to the arrival instant. -/
def processRow (hasDuration : Bool) (r : RawRow) (day : ℤ) : FlightRec :=
  let aout := r.depTod.map (fun t => day * 1440 + t)
  let ainBase := r.arrTod.map (fun t => day * 1440 + t)
  let overnight : Bool :=
    match r.arrTod, r.depTod with
    | some a, some d => decide (a < d)
    | _, _ => false
  { dateDay := day
    actualOut := aout
    actualIn := if overnight then ainBase.map (fun x => x + 1440) else ainBase
    isCancelled := hasDuration && containsCancelled r.duration }

/-- process_csv_data (src/server.py lines 25-74, src/app.py 29-77).
Rows whose Date cell failed to parse are dropped.  Accessing the Date
column when it is absent raises, caught as an error.  When zero rows
survive the date parse, the empty frame gives the actual_in and
actual_out columns a non-datetime dtype, so the dt accessor in the
overnight step raises, caught as an error.  Otherwise the surviving
rows become records and the modal metadata is extracted. -/
def process_csv_data (t : CsvTable) : Except String (List FlightRec × Meta) :=
  if t.hasDate = false then
    Except.error "Error processing CSV: KeyError Date"
  else
    let surviving := t.rows.filterMap (fun r => r.date.map (fun d => (d, r)))
    if surviving.isEmpty then
      Except.error
        "Error processing CSV: Can only use .dt accessor with datetimelike values"
    else
      let recs := surviving.map (fun p => processRow t.hasDuration p.2 p.1)
      match colMode t.hasOrigin "?" (surviving.map (fun p => p.2.origin)),
            colMode t.hasDest "?" (surviving.map (fun p => p.2.dest)),
            colMode t.hasAircraft "Unknown" (surviving.map (fun p => p.2.aircraft)) with
      | Except.ok o, Except.ok de, Except.ok a =>
          Except.ok (recs, { origin := o, dest := de, aircraft := a, count := recs.length })
      | Except.error m, _, _ => Except.error m
      | _, Except.error m, _ => Except.error m
      | _, _, Except.error m => Except.error m

/-- The record list of a successful ingest; empty on error. -/
def ingestRecsList (e : Except String (List FlightRec × Meta)) : List FlightRec :=
  match e with
  | Except.ok p => p.1
  | Except.error _ => []

/-- Is an ingest outcome the error case. -/
def isErrorResult (e : Except String (List FlightRec × Meta)) : Bool :=
  match e with
  | Except.ok _ => false
  | Except.error _ => true

/-- The 24-hour wrap correction on a raw delay (src comment: Fix 24h
wrap).  Two sequential masked updates: first add 1440 to values below
-720, then subtract 1440 from values (after the first update) above
720. -/
def fix24hWrap (d : ℤ) : ℤ :=
  let d1 := if d < -720 then d + 1440 else d
  if d1 > 720 then d1 - 1440 else d1

/-- A CSV record after the delay-standardization step of
analyze_tail_risk: delay_minutes (none when actual_in is absent) and
sched_in_local (set to actual_in for CSV records). -/
structure NormRec where
  dateDay : ℤ
  isCancelled : Bool
  delay : Option ℤ
  schedInLocal : Option ℤ
  deriving DecidableEq, Repr

/-- Step 1 of analyze_tail_risk for a CSV record: user_sched_dt is the
record date combined with the user scheduled time-of-day (the date is
always present post-ingest, so the dropna on user_sched_dt drops
nothing); delay_minutes is actual_in minus user_sched_dt with the
24-hour wrap correction applied; sched_in_local is actual_in. -/
def normalizeRec (schedTod : ℤ) (r : FlightRec) : NormRec :=
  let userSched := r.dateDay * 1440 + schedTod
  { dateDay := r.dateDay
    isCancelled := r.isCancelled
    delay := r.actualIn.map (fun ai => fix24hWrap (ai - userSched))
    schedInLocal := r.actualIn }

/-- The circular time-of-day distance test at the heart of
is_relevant_time: diff is the absolute difference, folded through the
24-hour clock when above 720, and the pair is relevant when the folded
difference is at most 180 (the 3 hour window). -/
def relevantTod (R U : ℤ) : Bool :=
  let diff := |R - U|
  let diff2 := if diff > 720 then 1440 - diff else diff
  decide (diff2 ≤ 180)

/-- is_relevant_time (src/server.py 108-115, src/app.py 228-233): a
missing reference instant is relevant by default; otherwise the
instant's time-of-day (hour * 60 + minute, i.e. the instant modulo
1440) is compared with the user minutes through the circular window. -/
def is_relevant_time (userMins : ℤ) (rowSched : Option ℤ) : Bool :=
  match rowSched with
  | none => true
  | some inst => relevantTod (inst % 1440) userMins

/-- relevant_df: the records passing is_relevant_time on sched_in_local. -/
def relevantSet (norm : List NormRec) (userMins : ℤ) : List NormRec :=
  norm.filter (fun r => is_relevant_time userMins r.schedInLocal)

/-- valid_df: relevant, not cancelled, with a defined delay. -/
def validSet (rel : List NormRec) : List NormRec :=
  rel.filter (fun r => !r.isCancelled && r.delay.isSome)

/-- The delay_minutes column of a record list. -/
def delaysOf (l : List NormRec) : List ℤ :=
  l.filterMap (fun r => r.delay)

/-- cancel_count: number of cancelled records in the relevant set. -/
def cancelCount (rel : List NormRec) : ℕ :=
  (rel.filter (fun r => r.isCancelled)).length

/-- cancel_rate = cancel_count / total_relevant if total_relevant > 0 else 0. -/
def cancelRate (rel : List NormRec) : ℚ :=
  if rel.length > 0 then (cancelCount rel : ℚ) / (rel.length : ℚ) else 0

/-- avg_delay: mean of the valid-set delays, 0 when empty. -/
def avgDelay (ds : List ℤ) : ℚ :=
  if ds.length > 0 then ((ds.sum : ℤ) : ℚ) / (ds.length : ℚ) else 0

/-- severe_count = count of valid-set delays above 45. -/
def severeCount (ds : List ℤ) : ℕ :=
  (ds.filter (fun d => d > 45)).length

/-- buffer_mins: deadline and scheduled times-of-day are both anchored
to the current calendar date, subtracted, and the negative branch of
the 24-hour wrap is corrected. -/
def buffer_mins (today deadTod schedTod : ℤ) : ℤ :=
  let raw := (today * 1440 + deadTod) - (today * 1440 + schedTod)
  if raw < -720 then raw + 1440 else raw

/-- miss_count = count of valid-set delays above the buffer, plus the
cancelled count. -/
def missCount (ds : List ℤ) (cancel : ℕ) (buf : ℤ) : ℕ :=
  (ds.filter (fun d => d > buf)).length + cancel

/-- prob_miss = miss_count / total_relevant if total_relevant > 0 else 0. -/
def missProbability (ds : List ℤ) (cancel total : ℕ) (buf : ℤ) : ℚ :=
  if total > 0 then (missCount ds cancel buf : ℚ) / (total : ℚ) else 0

/-- The analysis report assembled at the end of analyze_tail_risk
(numeric fields kept as numbers rather than formatted strings). -/
structure Report where
  total_flights : ℕ
  relevant_flights : ℕ
  hidden_flights : ℕ
  cancellation_rate : ℚ
  average_delay : ℚ
  severe_delays_count : ℕ
  deadline_miss_probability : Option ℚ
  is_high_risk : Bool
  delay_distribution : List ℤ
  deriving DecidableEq, Repr

/-- analyze_tail_risk (src/server.py 76-161, src/app.py 195-267) on
CSV-sourced records: standardize delays, filter by circular relevance,
compute the aggregate metrics, and when a deadline is supplied compute
the buffer (anchored to the invocation's current date, the today
argument) and the deadline-miss probability. -/
def analyze_tail_risk (recs : List FlightRec) (schedTod : ℤ)
    (deadline : Option ℤ) (today : ℤ) : Report :=
  let norm := recs.map (normalizeRec schedTod)
  let rel := relevantSet norm schedTod
  let ds := delaysOf (validSet rel)
  match deadline with
  | none =>
    { total_flights := norm.length
      relevant_flights := rel.length
      hidden_flights := norm.length - rel.length
      cancellation_rate := cancelRate rel
      average_delay := avgDelay ds
      severe_delays_count := severeCount ds
      deadline_miss_probability := none
      is_high_risk := false
      delay_distribution := ds }
  | some deadTod =>
    let buf := buffer_mins today deadTod schedTod
    let pm := missProbability ds (cancelCount rel) rel.length buf
    { total_flights := norm.length
      relevant_flights := rel.length
      hidden_flights := norm.length - rel.length
      cancellation_rate := cancelRate rel
      average_delay := avgDelay ds
      severe_delays_count := severeCount ds
      deadline_miss_probability := some pm
      is_high_risk := decide (pm > 15 / 100)
      delay_distribution := ds }

/-! ### Helper lemmas -/

/-- Characterization of the circular window: relevant exactly when the
plain distance is at most 180 or at least 1260 (that is, circular
distance at most 180 for arguments a day apart). -/
lemma relevantTod_iff (R U : ℤ) :
    relevantTod R U = true ↔ |R - U| ≤ 180 ∨ 1260 ≤ |R - U| := by
  simp only [relevantTod, decide_eq_true_eq]
  rcases abs_cases (R - U) with ⟨h1, h2⟩ | ⟨h1, h2⟩ <;> rw [h1] <;> split_ifs <;> omega

/-- The date anchor cancels out of the buffer computation. -/
lemma buffer_mins_eq (today deadTod schedTod : ℤ) :
    buffer_mins today deadTod schedTod =
      (if deadTod - schedTod < -720 then deadTod - schedTod + 1440
       else deadTod - schedTod) := by
  simp only [buffer_mins]
  have h : (today * 1440 + deadTod) - (today * 1440 + schedTod)
      = deadTod - schedTod := by ring
  rw [h]

/-- A pointwise weaker filter keeps no more elements. -/
lemma length_filter_mono {α : Type} {p q : α → Bool} (l : List α)
    (h : ∀ a, p a = true → q a = true) :
    (l.filter p).length ≤ (l.filter q).length := by
  induction l with
  | nil => simp
  | cons a t ih =>
    simp only [List.filter_cons]
    by_cases hp : p a = true
    · rw [if_pos hp, if_pos (h a hp)]
      simp only [List.length_cons]
      omega
    · rw [if_neg hp]
      split_ifs
      · simp only [List.length_cons]
        omega
      · exact ih

/-- The valid set and the cancelled records are disjoint subsets of the
relevant set, so their sizes sum to at most its size. -/
lemma validSet_length_add_cancelCount_le (rel : List NormRec) :
    (validSet rel).length + cancelCount rel ≤ rel.length := by
  induction rel with
  | nil => simp [validSet, cancelCount]
  | cons r t ih =>
    simp only [validSet, cancelCount, List.filter_cons] at ih ⊢
    cases hc : r.isCancelled <;> cases hd : r.delay.isSome <;>
      simp [hc, hd] <;> omega

/-! ### Claims -/

/-- Claim C5 (confirmed): a record whose reference instant is absent or
unusable is classified relevant by is_relevant_time, for every user
scheduled time, so it is always included in the relevant set. -/
theorem c5_missing_reference_is_relevant (userMins : ℤ) :
    is_relevant_time userMins none = true := rfl

/-- Claim C7 (confirmed): buffer_mins is independent of the current
calendar date used as anchor, equals the direct time-of-day difference
(deadline minus scheduled) with only the negative branch wrapped, and
the whole analysis result is identical across runs differing only in
the current date. -/
theorem c7_buffer_date_independent (t1 t2 deadTod schedTod : ℤ)
    (recs : List FlightRec) (deadline : Option ℤ) :
    buffer_mins t1 deadTod schedTod = buffer_mins t2 deadTod schedTod
    ∧ buffer_mins t1 deadTod schedTod =
        (if deadTod - schedTod < -720 then deadTod - schedTod + 1440
         else deadTod - schedTod)
    ∧ analyze_tail_risk recs schedTod deadline t1
        = analyze_tail_risk recs schedTod deadline t2 := by
  refine ⟨?_, buffer_mins_eq t1 deadTod schedTod, ?_⟩
  · rw [buffer_mins_eq, buffer_mins_eq]
  · cases deadline with
    | none => rfl
    | some d => simp only [analyze_tail_risk, buffer_mins_eq]

/-- Claim C1 (amended): the folded delay has absolute value at most 720
for every raw difference in the interval from -2160 to 2160, which
covers every raw difference a non-overnight record can produce; raw
differences from overnight-corrected records can reach almost 2880
minutes and then escape the fold (see the counterexample). -/
theorem c1_wrap_fold_bounded (raw : ℤ) (h1 : -2160 ≤ raw) (h2 : raw ≤ 2160) :
    |fix24hWrap raw| ≤ 720 := by
  rw [abs_le]
  simp only [fix24hWrap]
  constructor <;> split_ifs <;> omega

theorem c1_wrap_fold_bounded_witness : |fix24hWrap 1000| ≤ 720 :=
  c1_wrap_fold_bounded 1000 (by decide) (by decide)

/-- Claim C1 counterexample: a CSV row with departure 11:59PM and
arrival 11:58PM gets the overnight correction, and against a user
scheduled time of 00:00 the pipeline computes a folded delay of 1438
minutes, outside the claimed range. -/
theorem c1_counterexample :
    (normalizeRec 0 (processRow false ⟨some 0, some 1439, some 1438, "", "", "", ""⟩ 0)).delay
      = some 1438 ∧ ¬(|(1438 : ℤ)| ≤ 720) := by
  constructor
  · rfl
  · decide

/-- Claim C3 counterexample: a row with a valid date, an unparseable
Arrival cell and no cancellation survives the ingest as a record with
is_cancelled false and an absent actual arrival instant. -/
theorem c3_counterexample :
    ((ingestRecsList (process_csv_data
        ⟨true, false, false, false, false,
         [⟨some 0, some 437, none, "", "", "", ""⟩]⟩)).all
      (fun r => r.isCancelled || r.actualIn.isSome)) = false := by
  rfl

/-- Claim C3 (amended): a canonical record produced by the CSV ingest
has a present actual arrival instant exactly when its Arrival cell
parsed; a record whose Arrival cell failed to parse survives with an
absent arrival even when not cancelled, since a time parse failure
yields an absent timestamp rather than a dropped row. -/
theorem c3_arrival_present_iff_parsed (hasDuration : Bool) (r : RawRow) (day : ℤ) :
    (processRow hasDuration r day).actualIn.isSome = r.arrTod.isSome := by
  simp only [processRow]
  cases har : r.arrTod <;> cases hdep : r.depTod <;>
    simp only [Option.map_none, Option.map_some, Option.isSome] <;>
    split_ifs <;> rfl

/-- Claim C4 (confirmed): the circular relevance test is symmetric, and
its window boundary is exact: a reference time-of-day at circular
distance exactly 180 minutes from the user time is relevant, one at 181
minutes is not, on either side. -/
theorem c4_circular_filter (R U : ℤ) (_hR0 : 0 ≤ R) (_hR1 : R < 1440)
    (hU0 : 0 ≤ U) (hU1 : U < 1440) :
    relevantTod R U = relevantTod U R
    ∧ relevantTod ((U + 180) % 1440) U = true
    ∧ relevantTod ((U + 1440 - 180) % 1440) U = true
    ∧ relevantTod ((U + 181) % 1440) U = false
    ∧ relevantTod ((U + 1440 - 181) % 1440) U = false := by
  refine ⟨?_, ?_, ?_, ?_, ?_⟩
  · simp only [relevantTod]
    rw [abs_sub_comm]
  · rw [relevantTod_iff]
    rcases abs_cases ((U + 180) % 1440 - U) with ⟨h1, h2⟩ | ⟨h1, h2⟩ <;>
      rw [h1] <;> omega
  · rw [relevantTod_iff]
    rcases abs_cases ((U + 1440 - 180) % 1440 - U) with ⟨h1, h2⟩ | ⟨h1, h2⟩ <;>
      rw [h1] <;> omega
  · rw [Bool.eq_false_iff, Ne, relevantTod_iff]
    rcases abs_cases ((U + 181) % 1440 - U) with ⟨h1, h2⟩ | ⟨h1, h2⟩ <;>
      rw [h1] <;> omega
  · rw [Bool.eq_false_iff, Ne, relevantTod_iff]
    rcases abs_cases ((U + 1440 - 181) % 1440 - U) with ⟨h1, h2⟩ | ⟨h1, h2⟩ <;>
      rw [h1] <;> omega

theorem c4_circular_filter_witness :
    relevantTod 500 400 = relevantTod 400 500
    ∧ relevantTod ((400 + 180) % 1440) 400 = true
    ∧ relevantTod ((400 + 1440 - 180) % 1440) 400 = true
    ∧ relevantTod ((400 + 181) % 1440) 400 = false
    ∧ relevantTod ((400 + 1440 - 181) % 1440) 400 = false :=
  c4_circular_filter 500 400 (by decide) (by decide) (by decide) (by decide)

/-- Claim C2 (confirmed): when the Date column is present but zero rows
survive the date parse, the ingest returns a structured error result,
never an empty-but-successful record set (the empty frame makes the
overnight step's dt accessor raise, and the try/except converts that
into an error result). -/
theorem c2_zero_survivors_error (t : CsvTable) (hdate : t.hasDate = true)
    (hz : ∀ r ∈ t.rows, r.date = none) :
    isErrorResult (process_csv_data t) = true := by
  have hs : t.rows.filterMap (fun r => r.date.map (fun d => (d, r))) = [] := by
    rw [List.filterMap_eq_nil_iff]
    intro a ha
    rw [hz a ha]
    rfl
  simp [process_csv_data, hdate, hs, isErrorResult]

theorem c2_zero_survivors_error_witness :
    isErrorResult (process_csv_data
      ⟨true, false, false, false, false,
       [⟨none, some 437, some 514, "1h 17m", "BCN", "CDG", "A320"⟩]⟩) = true :=
  c2_zero_survivors_error
    ⟨true, false, false, false, false,
     [⟨none, some 437, some 514, "1h 17m", "BCN", "CDG", "A320"⟩]⟩
    rfl (by decide)

/-- Claim C8 (confirmed): when both Departure and Arrival parse and the
arrival time-of-day is strictly earlier than the departure time-of-day,
exactly one calendar day (1440 minutes) is added to the arrival
instant, and the other fields of the record are unchanged. -/
theorem c8_overnight_correction (hasDuration : Bool) (r : RawRow) (day a d : ℤ)
    (ha : r.arrTod = some a) (hdep : r.depTod = some d) (hlt : a < d) :
    (processRow hasDuration r day).actualIn = some (day * 1440 + a + 1440)
    ∧ (processRow hasDuration r day).actualOut = some (day * 1440 + d)
    ∧ (processRow hasDuration r day).dateDay = day
    ∧ (processRow hasDuration r day).isCancelled
        = (hasDuration && containsCancelled r.duration) := by
  have hb : decide (a < d) = true := decide_eq_true hlt
  simp [processRow, ha, hdep, hb]

/-- Departure 11:50PM (1430 minutes), arrival 12:10AM (10 minutes) on
nominal day 0: the corrected arrival instant is day 1 at 00:10, one
calendar day after the departure's date, with positive duration. -/
theorem c8_overnight_correction_witness :
    (processRow false ⟨some 0, some 1430, some 10, "", "", "", ""⟩ 0).actualIn
      = some (0 * 1440 + 10 + 1440)
    ∧ ((0 * 1440 + 10 + 1440 : ℤ) - (0 * 1440 + 1430) > 0)
    ∧ (0 * 1440 + 10 + 1440 : ℤ) / 1440 = 0 + 1 := by
  refine ⟨(c8_overnight_correction false ⟨some 0, some 1430, some 10, "", "", "", ""⟩
    0 10 1430 rfl rfl (by decide)).1, by decide, by decide⟩

/-- Claim C6 (confirmed): holding the valid-set delays, cancelled count
and relevant count fixed, the deadline-miss probability is monotonically
non-decreasing as the buffer decreases: a smaller buffer never gives a
smaller miss probability. -/
theorem c6_miss_prob_monotone (ds : List ℤ) (cancel total : ℕ) (b1 b2 : ℤ)
    (h : b1 ≤ b2) :
    missProbability ds cancel total b2 ≤ missProbability ds cancel total b1 := by
  unfold missProbability
  split_ifs with ht
  · have hc : missCount ds cancel b2 ≤ missCount ds cancel b1 := by
      unfold missCount
      have hm := length_filter_mono (l := ds)
        (p := fun d => decide (d > b2)) (q := fun d => decide (d > b1)) ?_
      · omega
      · intro x hx
        simp only [decide_eq_true_eq] at hx ⊢
        omega
    have ht' : (0 : ℚ) < (total : ℚ) := by exact_mod_cast ht
    exact (div_le_div_iff_of_pos_right ht').mpr (by exact_mod_cast hc)
  · exact le_refl 0

theorem c6_miss_prob_monotone_witness :
    missProbability [50] 0 1 60 ≤ missProbability [50] 0 1 30 :=
  c6_miss_prob_monotone [50] 0 1 30 60 (by decide)

/-- Claim C9 (confirmed): a relevant record whose Duration cell
contains the case-insensitive substring Cancelled enters the relevant
set, is excluded from the valid set (so it affects neither the
average-delay data nor the severe-delay count), is counted exactly once
in the cancellation numerator, and once more in the miss-count
numerator, for every other record set, buffer and schedule. -/
theorem c9_cancelled_counting (raw : RawRow) (day sched buf : ℤ)
    (others : List NormRec)
    (hc : containsCancelled raw.duration = true)
    (hrel : is_relevant_time sched
      (normalizeRec sched (processRow true raw day)).schedInLocal = true) :
    relevantSet (normalizeRec sched (processRow true raw day) :: others) sched
        = normalizeRec sched (processRow true raw day) :: relevantSet others sched
    ∧ (normalizeRec sched (processRow true raw day))
        ∉ validSet (relevantSet (normalizeRec sched (processRow true raw day) :: others) sched)
    ∧ validSet (relevantSet (normalizeRec sched (processRow true raw day) :: others) sched)
        = validSet (relevantSet others sched)
    ∧ cancelCount (relevantSet (normalizeRec sched (processRow true raw day) :: others) sched)
        = cancelCount (relevantSet others sched) + 1
    ∧ missCount
        (delaysOf (validSet (relevantSet (normalizeRec sched (processRow true raw day) :: others) sched)))
        (cancelCount (relevantSet (normalizeRec sched (processRow true raw day) :: others) sched)) buf
      = missCount (delaysOf (validSet (relevantSet others sched)))
          (cancelCount (relevantSet others sched)) buf + 1 := by
  set r := normalizeRec sched (processRow true raw day) with hr
  have hcanc : r.isCancelled = true := by
    rw [hr]
    simp [normalizeRec, processRow, hc]
  have h1 : relevantSet (r :: others) sched = r :: relevantSet others sched := by
    unfold relevantSet
    rw [List.filter_cons, if_pos hrel]
  have h2 : validSet (r :: relevantSet others sched)
      = validSet (relevantSet others sched) := by
    unfold validSet
    rw [List.filter_cons, if_neg (by simp [hcanc])]
  have h3 : cancelCount (r :: relevantSet others sched)
      = cancelCount (relevantSet others sched) + 1 := by
    unfold cancelCount
    rw [List.filter_cons, if_pos (by simp [hcanc])]
    simp
  refine ⟨h1, ?_, by rw [h1, h2], by rw [h1, h3], ?_⟩
  · rw [h1, h2]
    intro hmem
    have hprop := (List.mem_filter.mp hmem).2
    rw [hcanc] at hprop
    simp at hprop
  · rw [h1, h2, h3]
    unfold missCount
    omega

theorem c9_cancelled_counting_witness :
    relevantSet (normalizeRec 480 (processRow true
        ⟨some 0, none, none, "Cancelled", "", "", ""⟩ 0) :: []) 480
      = normalizeRec 480 (processRow true
        ⟨some 0, none, none, "Cancelled", "", "", ""⟩ 0) :: relevantSet [] 480 :=
  (c9_cancelled_counting ⟨some 0, none, none, "Cancelled", "", "", ""⟩
    0 480 30 [] (by decide) rfl).1

/-- Claim C10 (confirmed): the cancellation rate and the deadline-miss
probability always lie in the closed unit interval, since the cancelled
relevant records and the valid-set records beyond the buffer are
disjoint subsets of the relevant set; both statistics are 0 on an empty
relevant set. -/
theorem c10_rates_unit_interval (rel : List NormRec) (buf : ℤ) :
    0 ≤ cancelRate rel ∧ cancelRate rel ≤ 1
    ∧ 0 ≤ missProbability (delaysOf (validSet rel)) (cancelCount rel) rel.length buf
    ∧ missProbability (delaysOf (validSet rel)) (cancelCount rel) rel.length buf ≤ 1
    ∧ cancelRate [] = 0
    ∧ missProbability (delaysOf (validSet [])) (cancelCount [])
        ([] : List NormRec).length buf = 0 := by
  have hcc : cancelCount rel ≤ rel.length := List.length_filter_le _ _
  have hmc : missCount (delaysOf (validSet rel)) (cancelCount rel) buf ≤ rel.length := by
    have hf : ((delaysOf (validSet rel)).filter (fun d => d > buf)).length
        ≤ (delaysOf (validSet rel)).length := List.length_filter_le _ _
    have hd : (delaysOf (validSet rel)).length ≤ (validSet rel).length :=
      List.length_filterMap_le _ _
    have hvc := validSet_length_add_cancelCount_le rel
    unfold missCount
    omega
  refine ⟨?_, ?_, ?_, ?_, rfl, rfl⟩
  · unfold cancelRate
    split_ifs with ht
    · positivity
    · exact le_refl 0
  · unfold cancelRate
    split_ifs with ht
    · rw [div_le_one (by exact_mod_cast ht)]
      exact_mod_cast hcc
    · exact zero_le_one
  · unfold missProbability
    split_ifs with ht
    · positivity
    · exact le_refl 0
  · unfold missProbability
    split_ifs with ht
    · rw [div_le_one (by exact_mod_cast ht)]
      exact_mod_cast hmc
    · exact zero_le_one
